import Mathlib

/-!
Verification of the GridWrinkl grid layout engine (`gridwrinkl_cli.py`).

The Python source is shallowly embedded below.  Python dictionaries that are
used as insertion-ordered maps (`categorized_blocks`, `zones`, the statistics
counters) are modelled as association lists in insertion order, with
`List.lookup` playing the role of `dict[key]` / `dict.get`.  Filesystem and
clock inputs (file sizes, modification ages, ISO timestamps) are passed in as
explicit parameters at the embedding boundary.
-/

namespace GridWrinkl

/-- A cell coordinate, the value stored under a block's `position` key. -/
structure Position where
  x : Nat
  y : Nat
deriving DecidableEq

/-- One tracked file, as the block dictionaries built by
`_create_initial_grid_layout` / `_reorganize_blocks`.  `position = none`
models the absence of the `position` key. -/
structure Block where
  path : String
  name : String
  type : String
  category : String
  size : Nat
  modified : String
  placed : Bool
  position : Option Position
deriving DecidableEq

/-- A zone rectangle as stored in the `zones` mapping. -/
structure Zone where
  x : Nat
  y : Nat
  width : Nat
  height : Nat
deriving DecidableEq

/-- The `grid_size` record. -/
structure GridSize where
  width : Nat
  height : Nat
deriving DecidableEq

/-- The `stats` object of a layout document. -/
structure Stats where
  total_files : Nat
  placed_files : Nat
  by_category : List (String × Nat)
  by_type : List (String × Nat)
deriving DecidableEq

/-- A persisted layout document (`initial.json` / `current.json`).  The three
fields read back by `grid_reorganize` via `dict.get` with a default are
`Option`s so that a malformed document (missing keys) is representable. -/
structure PersistedDoc where
  version : String
  timestamp : String
  grid_size : Option GridSize
  zones : Option (List (String × Zone))
  blocks : Option (List Block)
  stats : Option Stats
deriving DecidableEq

/-! ## Classifier (`_analyze_file`, lines 529-576) -/

/-- Result record of `_analyze_file`. -/
structure AnalyzeResult where
  type : String
  category : String
  size : Nat
  modified : String
deriving DecidableEq

/-- Boundary inputs of `_analyze_file`: `ext` is `file_path.suffix.lower()`,
`days_since_modified` is `(datetime.now() - fromtimestamp(st_mtime)).days`. -/
structure FileInfo where
  path : String
  name : String
  ext : String
  size : Nat
  days_since_modified : Int
  modified : String
deriving DecidableEq

/-- Extension → kind chain of `_analyze_file` (lines 534-550). -/
def inferType (ext : String) : String :=
  if ext ∈ [".py", ".js", ".ts", ".java", ".c", ".cpp", ".go", ".rs"] then "code"
  else if ext ∈ [".md", ".txt", ".doc", ".docx", ".pdf"] then "document"
  else if ext ∈ [".json", ".yaml", ".yml", ".toml", ".ini", ".config"] then "config"
  else if ext ∈ [".jpg", ".png", ".gif", ".svg", ".webp"] then "image"
  else if ext ∈ [".html", ".css", ".scss", ".sass"] then "web"
  else if ext ∈ [".sql", ".db"] then "database"
  else if ext ∈ [".zip", ".tar", ".gz", ".rar"] then "archive"
  else "unknown"

/-- Python `str.startswith`, modelled on the string's character list. -/
def pyStartsWith (s pre : String) : Bool :=
  pre.data.isPrefixOf s.data

/-- Python `str.endswith`, modelled on the string's character list. -/
def pyEndsWith (s suf : String) : Bool :=
  suf.data.isSuffixOf s.data

/-- Category logic of `_analyze_file` (lines 552-569): recency bucket first,
then the special-name override chain. -/
def inferCategory (name : String) (days_since_modified : Int) : String :=
  let category :=
    if days_since_modified < 7 then "active"
    else if days_since_modified < 30 then "pending"
    else "archive"
  if pyStartsWith name "README" then "resources"
  else if name ∈ ["requirements.txt", "package.json", "setup.py"] then "resources"
  else if pyStartsWith name "test_" || pyEndsWith name "_test.py" then "resources"
  else category

/-- `_analyze_file` (lines 529-576). -/
def _analyze_file (f : FileInfo) : AnalyzeResult :=
  { type := inferType f.ext
    category := inferCategory f.name f.days_since_modified
    size := f.size
    modified := f.modified }

/-! ## Statistics counters (lines 506-525 and 1031-1050) -/

/-- One step of the counting loops: `counts[k] += 1` with first-insertion
key order, as Python dicts behave. -/
def bumpCount (m : List (String × Nat)) (k : String) : List (String × Nat) :=
  if (m.lookup k).isSome then
    m.map (fun p => if p.1 == k then (p.1, p.2 + 1) else p)
  else m ++ [(k, 1)]

/-- The `by_category` counting loop. -/
def countCategories (blocks : List Block) : List (String × Nat) :=
  blocks.foldl (fun m b => bumpCount m b.category) []

/-- The `by_type` counting loop. -/
def countTypes (blocks : List Block) : List (String × Nat) :=
  blocks.foldl (fun m b => bumpCount m b.type) []

/-! ## Fresh build (`_create_initial_grid_layout`, lines 475-527) -/

/-- The block dictionary appended for each scanned file (lines 481-489):
`placed` is `False` and there is no `position` key. -/
def mkBlock (f : FileInfo) : Block :=
  { path := f.path
    name := f.name
    type := (_analyze_file f).type
    category := (_analyze_file f).category
    size := (_analyze_file f).size
    modified := (_analyze_file f).modified
    placed := false
    position := none }

/-- The `stats` object of the initial layout: `placed_files` is the literal
`0` (line 500). -/
def initialStats (file_blocks : List Block) : Stats :=
  { total_files := file_blocks.length
    placed_files := 0
    by_category := countCategories file_blocks
    by_type := countTypes file_blocks }

/-- `_create_initial_grid_layout` (lines 475-527).  `now` is
`datetime.now().isoformat()`; `gs`/`zones` come from `self.config`. -/
def _create_initial_grid_layout (now : String) (gs : GridSize)
    (zones : List (String × Zone)) (files : List FileInfo) : PersistedDoc :=
  let file_blocks := files.map mkBlock
  { version := "1.0.0"
    timestamp := now
    grid_size := some gs
    zones := some zones
    blocks := some file_blocks
    stats := some (initialStats file_blocks) }

/-! ## Occupancy grid and Zone Placer (`_place_blocks_in_zone`, lines 1106-1129) -/

/-- The occupancy matrix, as the Python list-of-rows of booleans. -/
abbrev Grid := List (List Bool)

/-- `[[False for _ in range(width)] for _ in range(height)]` (line 1075). -/
def mkGrid (gs : GridSize) : Grid :=
  List.replicate gs.height (List.replicate gs.width false)

/-- Read `grid[y][x]`; only reached after the source's bounds check. -/
def gridCell (g : Grid) (y x : Nat) : Bool :=
  (g.getD y []).getD x false

/-- Write `grid[y][x] = True`. -/
def gridMark (g : Grid) (y x : Nat) : Grid :=
  g.set y ((g.getD y []).set x true)

/-- The zone's cells in the scan order of the two nested `for` loops of
`_place_blocks_in_zone`: `y` outer from `zone.y`, `x` inner from `zone.x`. -/
def zoneCoords (zone : Zone) : List (Nat × Nat) :=
  ((List.range zone.height).map (fun dy =>
    (List.range zone.width).map (fun dx => (zone.x + dx, zone.y + dy)))).flatten

/-- The loop body of `_place_blocks_in_zone` (lines 1112-1129), recursing over
the remaining scan coordinates.  The state is the block list (which the
source mutates in place by `pop(0)`) and the occupancy grid.  A popped block
is mutated to `placed = True` with a `position` and then dropped: nothing in
the source ever stores it again, so the function's effect on the list is to
leave exactly the leftover blocks. -/
def placeLoop : List (Nat × Nat) → List Block → Grid → List Block × Grid
  | [], blocks, grid => (blocks, grid)
  | (x, y) :: rest, blocks, grid =>
    if grid.length ≤ y || (grid.headD []).length ≤ x then
      placeLoop rest blocks grid
    else if gridCell grid y x then
      placeLoop rest blocks grid
    else
      match blocks with
      | [] => ([], grid)
      | _ :: bs => placeLoop rest bs (gridMark grid y x)

/-- `_place_blocks_in_zone` (lines 1106-1129): returns the list the caller's
`blocks_list` holds after the call, plus the updated grid. -/
def _place_blocks_in_zone (blocks : List Block) (zone : Zone) (grid : Grid) :
    List Block × Grid :=
  placeLoop (zoneCoords zone) blocks grid

/-! ## Reorganization (`_reorganize_blocks`, lines 1072-1104) -/

/-- The fixed category→zone table (`self.category_to_zone`, lines 66-73). -/
def category_to_zone : List (String × String) :=
  [("active", "active"), ("pending", "active"), ("archive", "archive"),
   ("completed", "archive"), ("resources", "resources"), ("reference", "resources")]

/-- One step of the grouping loop (lines 1078-1083): append `b` to the entry
for its category, creating the entry at the end on first appearance, exactly
as a Python dict keyed by category behaves. -/
def addToCategory (acc : List (String × List Block)) (b : Block) :
    List (String × List Block) :=
  if (acc.lookup b.category).isSome then
    acc.map (fun p => if p.1 == b.category then (p.1, p.2 ++ [b]) else p)
  else acc ++ [(b.category, [b])]

/-- `categorized_blocks` after the grouping loop. -/
def categorizeBlocks (blocks : List Block) : List (String × List Block) :=
  blocks.foldl addToCategory []

/-- The reset loop (lines 1086-1090): `placed = False`, delete `position`. -/
def resetBlock (b : Block) : Block :=
  { b with placed := false, position := none }

/-- The placement loop over categories (lines 1093-1097), threading the shared
occupancy grid; each group's list is replaced by what the in-place mutation of
`_place_blocks_in_zone` leaves in it.  A category whose mapped zone name is
not a key of `zones` is skipped. -/
def placeCategories : List (String × List Block) → List (String × Zone) → Grid →
    List (String × List Block) × Grid
  | [], _, grid => ([], grid)
  | (cat, lst) :: rest, zones, grid =>
    match zones.lookup ((category_to_zone.lookup cat).getD "archive") with
    | some zone =>
      let pr := _place_blocks_in_zone lst zone grid
      let o := placeCategories rest zones pr.2
      ((cat, pr.1) :: o.1, o.2)
    | none =>
      let o := placeCategories rest zones grid
      ((cat, lst) :: o.1, o.2)

/-- `_reorganize_blocks` (lines 1072-1104). -/
def _reorganize_blocks (blocks : List Block) (zones : List (String × Zone))
    (grid_size : GridSize) : List Block :=
  let grid := mkGrid grid_size
  let categorized := (categorizeBlocks blocks).map (fun p => (p.1, p.2.map resetBlock))
  let placedGroups := (placeCategories categorized zones grid).1
  (placedGroups.map Prod.snd).flatten

/-! ## Layout Store and `grid_reorganize` (lines 974-1070) -/

/-- The on-disk state owned by the Layout Store: the optional
`layouts/current.json`, the optional `layouts/initial.json`, and the backup
directory contents in creation order. -/
structure Store where
  current : Option PersistedDoc
  initial : Option PersistedDoc
  backups : List PersistedDoc
deriving DecidableEq

/-- Lines 988-995: `layout_path = current if current.exists() else initial`,
then the `layout_path.exists()` check; `none` means neither file exists. -/
def layoutPathDoc (s : Store) : Option PersistedDoc :=
  match s.current with
  | some d => some d
  | none => s.initial

/-- The default zones substituted by `layout.get("zones", {...})`
(lines 1002-1006). -/
def default_zones : List (String × Zone) :=
  [("active", ⟨0, 0, 6, 4⟩), ("resources", ⟨6, 0, 6, 4⟩), ("archive", ⟨0, 4, 12, 4⟩)]

/-- The `stats` object built for the reorganized layout (lines 1023-1028):
`placed_files` is `sum(1 for block in new_blocks if block.get("placed", False))`. -/
def reorgStats (new_blocks : List Block) : Stats :=
  { total_files := new_blocks.length
    placed_files := new_blocks.countP (fun b => b.placed)
    by_category := countCategories new_blocks
    by_type := countTypes new_blocks }

/-- `grid_reorganize` (lines 974-1070) on the success path of the backup copy
(the failing-copy behaviour of lines 1052-1059 is modelled separately by
`save_current_with_backup`).  `initialized` is `self.is_initialized()`, `now`
the timestamp supplied by the clock.  Returns the Python boolean result and
the Layout Store state after the call; console logging is not modelled. -/
def grid_reorganize (inited : Bool) (now : String) (s : Store) :
    Bool × Store :=
  if !inited then (false, s)
  else
    match layoutPathDoc s with
    | none => (false, s)
    | some layout =>
      let grid_size := layout.grid_size.getD ⟨12, 8⟩
      let zones := layout.zones.getD default_zones
      let blocks := layout.blocks.getD []
      let new_blocks := _reorganize_blocks blocks zones grid_size
      let new_layout : PersistedDoc :=
        { version := "1.0.0"
          timestamp := now
          grid_size := some grid_size
          zones := some zones
          blocks := some new_blocks
          stats := some (reorgStats new_blocks) }
      (true, { current := some new_layout
               initial := s.initial
               backups := s.backups ++ [layout] })

/-- Filesystem effects of the save step of `grid_reorganize`
(lines 1052-1059). -/
inductive FsEvent where
  | backupWrite : PersistedDoc → FsEvent
  | writeCurrent : PersistedDoc → FsEvent
deriving DecidableEq

/-- The save step of `grid_reorganize` (lines 1052-1059) as the sequence of
completed filesystem writes.  `layoutPathExists` is the `layout_path.exists()`
guard (always true on the reorganize path, where the layout was just loaded
from that file); `backupOk` tells whether `shutil.copy2` succeeds.  When the
copy raises, the exception propagates and the `current.json` write on
line 1058 is never executed, so no event completes. -/
def save_current_with_backup (backupOk : Bool) (layoutPathExists : Bool)
    (prior new_layout : PersistedDoc) : List FsEvent :=
  if layoutPathExists then
    if backupOk then
      [FsEvent.backupWrite prior, FsEvent.writeCurrent new_layout]
    else []
  else [FsEvent.writeCurrent new_layout]

/-! ## Concrete inputs used by the claim theorems -/

/-- A single recently modified source file of category `active`. -/
def c1_block : Block :=
  { path := "a.py", name := "a.py", type := "code", category := "active",
    size := 1, modified := "m", placed := false, position := none }

/-- The i-th of 30 files classified `active` (distinguished by `size`). -/
def mkActiveBlock (i : Nat) : Block :=
  { path := "f", name := "f", type := "code", category := "active",
    size := i, modified := "m", placed := false, position := none }

/-- 30 blocks of category `active` and no other categories. -/
def c2_blocks : List Block := (List.range 30).map mkActiveBlock

/-- The scenario zone table: `active` is the 24-cell rectangle at the origin. -/
def c2_zones : List (String × Zone) := [("active", ⟨0, 0, 6, 4⟩)]

/-- A current layout holding the 30-block scenario. -/
def c6_doc : PersistedDoc :=
  { version := "1.0.0", timestamp := "t0", grid_size := some ⟨12, 8⟩,
    zones := some c2_zones, blocks := some c2_blocks,
    stats := some (reorgStats c2_blocks) }

/-- A store whose current layout is the 30-block scenario. -/
def c6_store : Store := { current := some c6_doc, initial := none, backups := [] }

/-- A persisted document violating the schema: `grid_size`, `zones` and
`blocks` keys are all missing. -/
def c9_doc : PersistedDoc :=
  { version := "1.0.0", timestamp := "t0", grid_size := none,
    zones := none, blocks := none, stats := none }

/-- A store whose current layout file holds the malformed document. -/
def c9_store : Store := { current := some c9_doc, initial := none, backups := [] }

/-- A file named `a.py` modified today. -/
def c3_file : FileInfo :=
  { path := "a.py", name := "a.py", ext := ".py", size := 10,
    days_since_modified := 0, modified := "m" }

/-! ## Claim theorems -/

/-- Claim C1 (code bug): the claim says every block of the prior layout
appears exactly once in the reorganized blocks list, placed blocks with
`placed = true` and their position.  The code violates this: with a single
`active` block and the standard zones, `_place_blocks_in_zone` pops the block
from its group when placing it and never re-adds it, so `_reorganize_blocks`
returns the empty list — the placed block has vanished from the layout. -/
theorem c1_placed_blocks_dropped :
    _reorganize_blocks [c1_block] default_zones ⟨12, 8⟩ = [] := by rfl

/-- Claim C2 (code bug): in the 12×8 / 24-cell / 30-block scenario the claim
requires 24 placed blocks with positions (0,0)…(5,3) plus 6 leftover blocks.
The code instead returns only the 6 leftover blocks, all with
`placed = false` and no position: the 24 blocks that were assigned positions
were popped from the group list and dropped. -/
theorem c2_scenario_loses_placed_blocks :
    (_reorganize_blocks c2_blocks c2_zones ⟨12, 8⟩).length = 6
    ∧ (_reorganize_blocks c2_blocks c2_zones ⟨12, 8⟩).all
        (fun b => !b.placed && b.position.isNone) = true
    ∧ _reorganize_blocks c2_blocks c2_zones ⟨12, 8⟩
        = ((List.range 30).drop 24).map (fun i => resetBlock (mkActiveBlock i)) := by
  refine ⟨by rfl, by rfl, by rfl⟩

/-- Claim C6 (code bug): reorganizing twice with no file changes is claimed
to write the same stats both times.  On the 30-block scenario the first
reorganization writes `total_files = 6` (only the 6 dropped-leftover blocks
survive in the layout), and reorganizing that layout again writes
`total_files = 0`, because the 6 remaining blocks now fit, are placed, and
are dropped in turn. -/
theorem c6_stats_not_idempotent :
    ((grid_reorganize true "t1" c6_store).2.current.bind
        (fun d => d.stats)).map (fun st => st.total_files) = some 6
    ∧ ((grid_reorganize true "t2"
          (grid_reorganize true "t1" c6_store).2).2.current.bind
        (fun d => d.stats)).map (fun st => st.total_files) = some 0 := by
  refine ⟨by rfl, by rfl⟩

/-- Claim C3 (counterexample): the claim says a fresh build invokes the Zone
Placer per group, so the initial layout contains placed blocks wherever a
group's zone has free cells.  With one `active` file and the standard zones
(whose `active` zone is entirely free), the initial layout built by
`_create_initial_grid_layout` still contains no placed block at all. -/
theorem c3_fresh_build_places_nothing :
    ((_create_initial_grid_layout "t" ⟨12, 8⟩ default_zones [c3_file]).blocks.getD
        []).length = 1
    ∧ ((_create_initial_grid_layout "t" ⟨12, 8⟩ default_zones [c3_file]).blocks.getD
        []).all (fun b => !b.placed && b.position.isNone) = true := by
  refine ⟨by rfl, by rfl⟩

/-- Claim C3 (amended): a fresh build classifies every file and groups
nothing: all blocks of the initial layout are unplaced with no position, and
the recorded `placed_files` is 0; zone placement is not performed during the
fresh build. -/
theorem c3_initial_layout_all_unplaced (now : String) (gs : GridSize)
    (zones : List (String × Zone)) (files : List FileInfo) :
    ((_create_initial_grid_layout now gs zones files).blocks.getD []).all
        (fun b => !b.placed && b.position.isNone) = true
    ∧ ((_create_initial_grid_layout now gs zones files).stats.map
        (fun st => st.placed_files)) = some 0 := by
  constructor
  · simp [_create_initial_grid_layout, List.all_eq_true, mkBlock]
  · rfl

/-- Claim C9 (counterexample): the claim says a persisted layout missing
`grid_size`, `zones` or `blocks` is surfaced as a `ConfigMissing`-class
error.  Reorganizing from a document missing all three instead succeeds
(returns `True`) and silently writes a layout built from the coerced
defaults: grid 12×8 and the three standard zones. -/
theorem c9_malformed_doc_coerced :
    (grid_reorganize true "t1" c9_store).1 = true
    ∧ ((grid_reorganize true "t1" c9_store).2.current.map
        (fun d => d.grid_size)) = some (some ⟨12, 8⟩)
    ∧ ((grid_reorganize true "t1" c9_store).2.current.map
        (fun d => d.zones)) = some (some default_zones) := by
  refine ⟨by rfl, by rfl, by rfl⟩

/-- Claim C4: the classifier assigns `active` under 7 days, `pending` under
30 days, `archive` otherwise, except that a name starting with `README`, one
of the fixed manifest names, or matching the test-file convention is always
classified `resources` regardless of recency. -/
theorem c4_classifier_category (f : FileInfo) :
    ((pyStartsWith f.name "README" = true
        ∨ f.name ∈ ["requirements.txt", "package.json", "setup.py"]
        ∨ pyStartsWith f.name "test_" = true
        ∨ pyEndsWith f.name "_test.py" = true) →
      (_analyze_file f).category = "resources")
    ∧ (¬ pyStartsWith f.name "README" = true →
        ¬ f.name ∈ ["requirements.txt", "package.json", "setup.py"] →
        ¬ pyStartsWith f.name "test_" = true →
        ¬ pyEndsWith f.name "_test.py" = true →
      (_analyze_file f).category =
        (if f.days_since_modified < 7 then "active"
         else if f.days_since_modified < 30 then "pending"
         else "archive")) := by
  constructor
  · intro h
    show inferCategory f.name f.days_since_modified = "resources"
    rcases h with h | h | h | h <;> simp [inferCategory, h]
  · intro h1 h2 h3 h4
    show inferCategory f.name f.days_since_modified =
      (if f.days_since_modified < 7 then "active"
       else if f.days_since_modified < 30 then "pending"
       else "archive")
    simp [inferCategory, h1, h2, h3, h4]

/-- A file named `README.md` last modified 200 days ago. -/
def c4_file : FileInfo :=
  { path := "README.md", name := "README.md", ext := ".md", size := 5,
    days_since_modified := 200, modified := "m" }

/-- Witness for C4: `README.md` modified 200 days ago is classified
`resources`, overriding the `archive`-by-age default. -/
theorem c4_witness : (_analyze_file c4_file).category = "resources" :=
  (c4_classifier_category c4_file).1 (Or.inl (by decide))

/-- Predicate tying a layout document's `stats` to its `blocks`. -/
def statsConsistent (d : PersistedDoc) : Prop :=
  ∀ bs st, d.blocks = some bs → d.stats = some st →
    st.total_files = bs.length ∧ st.placed_files = bs.countP (fun b => b.placed)

/-- Claim C5: in every layout produced by a fresh build or by a
reorganization, `stats.total_files` is the length of the blocks list and
`stats.placed_files` counts the blocks with `placed = true`. -/
theorem c5_stats_conservation :
    (∀ now gs zones files,
        statsConsistent (_create_initial_grid_layout now gs zones files))
    ∧ (∀ now s d, (grid_reorganize true now s).2.current = some d →
        statsConsistent d) := by
  constructor
  · intro now gs zones files bs st hbs hst
    rw [_create_initial_grid_layout] at hbs hst
    simp only [Option.some.injEq] at hbs hst
    subst hbs
    subst hst
    refine ⟨rfl, ?_⟩
    show (0 : Nat) = _
    symm
    rw [List.countP_eq_zero]
    intro b hb
    obtain ⟨f, hf, rfl⟩ := List.mem_map.mp hb
    simp [mkBlock]
  · intro now s d hd bs st hbs hst
    cases hl : layoutPathDoc s with
    | none =>
      rw [grid_reorganize] at hd
      simp only [Bool.not_true, Bool.false_eq_true, if_false, hl] at hd
      cases hcu : s.current with
      | none => rw [hcu] at hd; exact absurd hd (by simp)
      | some c => rw [layoutPathDoc, hcu] at hl; exact absurd hl (by simp)
    | some doc =>
      rw [grid_reorganize] at hd
      simp only [Bool.not_true, Bool.false_eq_true, if_false, hl,
        Option.some.injEq] at hd
      subst hd
      simp only [Option.some.injEq] at hbs hst
      subst hbs
      subst hst
      exact ⟨rfl, rfl⟩

/-- One recently modified source file, input of the C5 witness. -/
def c5_files : List FileInfo :=
  [{ path := "b.py", name := "b.py", ext := ".py", size := 10,
     days_since_modified := 0, modified := "m" }]

/-- Witness for C5: on a one-file fresh build the recorded stats are
`total_files = 1` and `placed_files = 0`. -/
theorem c5_witness :
    ((_create_initial_grid_layout "t" ⟨12, 8⟩ default_zones c5_files).stats.map
        (fun st => st.total_files)) = some 1
    ∧ ((_create_initial_grid_layout "t" ⟨12, 8⟩ default_zones c5_files).stats.map
        (fun st => st.placed_files)) = some 0 := by
  have h := (c5_stats_conservation.1 "t" ⟨12, 8⟩ default_zones c5_files)
      (c5_files.map mkBlock) (initialStats (c5_files.map mkBlock)) rfl rfl
  constructor
  · show some ((initialStats (c5_files.map mkBlock)).total_files) = some 1
    rw [h.1]
    rfl
  · show some ((initialStats (c5_files.map mkBlock)).placed_files) = some 0
    rw [h.2]
    rfl

/-- Claim C7: reorganization loads `current.json` when it exists (the loaded
file is the one backed up), falls back to `initial.json` otherwise, and when
neither exists it returns the failure indicator with the store untouched: no
layout written, no backup created, no empty layout fabricated. -/
theorem c7_load_fallback_and_abort (now : String) (s : Store) :
    (∀ c, s.current = some c →
        (grid_reorganize true now s).1 = true
        ∧ (grid_reorganize true now s).2.backups = s.backups ++ [c])
    ∧ (s.current = none → ∀ i, s.initial = some i →
        (grid_reorganize true now s).1 = true
        ∧ (grid_reorganize true now s).2.backups = s.backups ++ [i])
    ∧ (s.current = none → s.initial = none →
        grid_reorganize true now s = (false, s)) := by
  refine ⟨?_, ?_, ?_⟩
  · intro c hc
    constructor <;> simp [grid_reorganize, layoutPathDoc, hc]
  · intro hc i hi
    constructor <;> simp [grid_reorganize, layoutPathDoc, hc, hi]
  · intro hc hi
    simp [grid_reorganize, layoutPathDoc, hc, hi]

/-- A store in which neither layout file exists. -/
def c7_store : Store := { current := none, initial := none, backups := [] }

/-- Witness for C7: reorganizing with no layout file present returns the
failure indicator and leaves the store exactly as it was. -/
theorem c7_witness : grid_reorganize true "t" c7_store = (false, c7_store) :=
  ((c7_load_fallback_and_abort "t" c7_store).2.2) rfl rfl

/-- Claim C8: whenever the save step completes the overwrite of an existing
current layout, the backup copy of the prior file completed first (and
verbatim: the backed-up document is the prior document itself); if the backup
copy fails, the overwrite does not happen. -/
theorem c8_no_overwrite_without_backup (backupOk : Bool)
    (prior new_layout : PersistedDoc)
    (h : FsEvent.writeCurrent new_layout ∈
        save_current_with_backup backupOk true prior new_layout) :
    backupOk = true
    ∧ save_current_with_backup backupOk true prior new_layout
        = [FsEvent.backupWrite prior, FsEvent.writeCurrent new_layout] := by
  cases backupOk with
  | false => simp [save_current_with_backup] at h
  | true => exact ⟨rfl, rfl⟩

/-- Witness for C8: a successful save emits the backup write strictly before
the current-layout write. -/
theorem c8_witness :
    save_current_with_backup true true c6_doc c9_doc
      = [FsEvent.backupWrite c6_doc, FsEvent.writeCurrent c9_doc] :=
  (c8_no_overwrite_without_backup true c6_doc c9_doc
    (by simp [save_current_with_backup])).2

/-- Claim C9 (amended): loading a persisted layout missing `grid_size`,
`zones` or `blocks` raises no error: reorganization succeeds and silently
substitutes the defaults (grid 12×8, the three standard zones, empty block
list) for the missing fields. -/
theorem c9_defaults_substituted (now : String) (s : Store) (doc : PersistedDoc)
    (h : layoutPathDoc s = some doc) :
    (grid_reorganize true now s).1 = true
    ∧ ((grid_reorganize true now s).2.current.map (fun d => d.grid_size))
        = some (some (doc.grid_size.getD ⟨12, 8⟩))
    ∧ ((grid_reorganize true now s).2.current.map (fun d => d.zones))
        = some (some (doc.zones.getD default_zones))
    ∧ ((grid_reorganize true now s).2.current.map (fun d => d.blocks))
        = some (some (_reorganize_blocks (doc.blocks.getD [])
            (doc.zones.getD default_zones) (doc.grid_size.getD ⟨12, 8⟩))) := by
  refine ⟨?_, ?_, ?_, ?_⟩ <;> simp [grid_reorganize, h]

/-- Witness for C9 (amended): the all-keys-missing document reorganizes
without error and gets the default 12×8 grid. -/
theorem c9_witness :
    (grid_reorganize true "t2" c9_store).1 = true
    ∧ ((grid_reorganize true "t2" c9_store).2.current.map
        (fun d => d.grid_size)) = some (some ⟨12, 8⟩) := by
  have h := c9_defaults_substituted "t2" c9_store c9_doc rfl
  exact ⟨h.1, h.2.1⟩

/-! ## Grouping lemmas used by claim C10 -/

/-- Unfolding of `List.lookup` at a cons cell, with a propositional guard. -/
theorem lookup_cons_if {α : Type} (k c : String) (v : α) (rest : List (String × α)) :
    List.lookup c ((k, v) :: rest) = if c = k then some v else List.lookup c rest := by
  show (match c == k with
    | true => some v
    | false => List.lookup c rest) = _
  by_cases h : c = k
  · simp [h]
  · have hb : (c == k) = false := by simp [h]
    simp [hb, h]

/-- A key appearing among the entry keys is found by `lookup`. -/
theorem lookup_isSome_of_mem_keys {α : Type} (l : List (String × α)) (c : String)
    (h : c ∈ l.map Prod.fst) : (List.lookup c l).isSome := by
  induction l with
  | nil => simp at h
  | cons p rest ih =>
    obtain ⟨k, v⟩ := p
    rw [lookup_cons_if]
    by_cases hk : c = k
    · rw [if_pos hk]
      rfl
    · rw [if_neg hk]
      simp only [List.map_cons, List.mem_cons] at h
      exact ih (h.resolve_left hk)

/-- A key that `lookup` misses heads no entry of the list. -/
theorem lookup_none_of_not_mem {α : Type} (l : List (String × α)) (c : String)
    (h : c ∉ l.map Prod.fst) : List.lookup c l = none := by
  induction l with
  | nil => rfl
  | cons p rest ih =>
    obtain ⟨k, v⟩ := p
    simp only [List.map_cons, List.mem_cons] at h
    push_neg at h
    rw [lookup_cons_if, if_neg h.1]
    exact ih h.2

/-- `lookup` through a map that only rewrites the values. -/
theorem lookup_map_snd {α β : Type} (g : α → β) (l : List (String × α)) (c : String) :
    List.lookup c (l.map (fun p => (p.1, g p.2))) = (List.lookup c l).map g := by
  induction l with
  | nil => rfl
  | cons p rest ih =>
    obtain ⟨k, v⟩ := p
    rw [List.map_cons, lookup_cons_if, lookup_cons_if]
    by_cases h : c = k
    · rw [if_pos h, if_pos h]
      rfl
    · rw [if_neg h, if_neg h, ih]

/-- `lookup` through the map that appends `b` to the entries keyed by its
category. -/
theorem lookup_map_bump (b : Block) (c : String) :
    ∀ (acc : List (String × List Block)),
      List.lookup c (acc.map (fun p =>
          if p.1 == b.category then (p.1, p.2 ++ [b]) else p)) =
        if c = b.category then (List.lookup c acc).map (fun l => l ++ [b])
        else List.lookup c acc := by
  intro acc
  induction acc with
  | nil => by_cases h : c = b.category <;> simp [h]
  | cons p rest ih =>
    obtain ⟨k, v⟩ := p
    rw [List.map_cons]
    by_cases hk : k = b.category
    · have hb : (k == b.category) = true := by simp [hk]
      rw [if_pos hb, lookup_cons_if, lookup_cons_if]
      by_cases hc : c = k
      · rw [if_pos hc, if_pos hc, if_pos (hc.trans hk)]
        rfl
      · rw [if_neg hc, if_neg hc, ih]
    · have hnb : ¬ ((k == b.category) = true) := by simp [hk]
      rw [if_neg hnb, lookup_cons_if, lookup_cons_if]
      by_cases hc : c = k
      · have hcb : ¬ c = b.category := fun hcb => hk (hc.symm.trans hcb)
        rw [if_pos hc, if_pos hc, if_neg hcb]
      · rw [if_neg hc, if_neg hc, ih]

/-- `lookup` through appending a single new entry at the end. -/
theorem lookup_append_single {α : Type} (kb : String) (vb : α) (c : String) :
    ∀ (l : List (String × α)),
      List.lookup c (l ++ [(kb, vb)]) =
        match List.lookup c l with
        | some v => some v
        | none => if c = kb then some vb else none := by
  intro l
  induction l with
  | nil => simp [lookup_cons_if]
  | cons p rest ih =>
    obtain ⟨k, v⟩ := p
    rw [List.cons_append, lookup_cons_if, lookup_cons_if]
    by_cases h : c = k
    · rw [if_pos h, if_pos h]
    · rw [if_neg h, if_neg h, ih]

/-- Value seen under a key after one grouping step (lines 1078-1083). -/
theorem getD_lookup_addToCategory (acc : List (String × List Block)) (b : Block)
    (c : String) :
    ((addToCategory acc b).lookup c).getD [] =
      if c = b.category then ((acc.lookup c).getD []) ++ [b]
      else (acc.lookup c).getD [] := by
  by_cases hs : (acc.lookup b.category).isSome
  · rw [addToCategory, if_pos hs, lookup_map_bump]
    by_cases hc : c = b.category
    · rw [if_pos hc, if_pos hc]
      subst hc
      obtain ⟨l, hl⟩ := Option.isSome_iff_exists.mp hs
      rw [hl]
      rfl
    · rw [if_neg hc, if_neg hc]
  · rw [addToCategory, if_neg hs, lookup_append_single]
    have hnone : acc.lookup b.category = none := Option.not_isSome_iff_eq_none.mp hs
    by_cases hc : c = b.category
    · subst hc
      rw [hnone]
      simp
    · cases hcl : acc.lookup c with
      | none => simp [hc]
      | some v => simp [hc]

/-- Value seen under a key after the whole grouping loop, relative to an
arbitrary starting accumulator. -/
theorem getD_lookup_foldl (bs : List Block) :
    ∀ (acc : List (String × List Block)) (c : String),
      ((bs.foldl addToCategory acc).lookup c).getD [] =
        ((acc.lookup c).getD []) ++ bs.filter (fun b => b.category == c) := by
  induction bs with
  | nil => intro acc c; simp
  | cons b bs ih =>
    intro acc c
    rw [List.foldl_cons, ih, getD_lookup_addToCategory]
    by_cases h : c = b.category
    · rw [if_pos h]
      have hf : (b.category == c) = true := by simp [h]
      rw [List.filter_cons, if_pos (by simp [hf])]
      rw [List.append_assoc, List.singleton_append]
    · rw [if_neg h]
      have hf : (b.category == c) = false := by
        simp only [beq_eq_false_iff_ne, ne_eq]
        exact fun hcb => h hcb.symm
      rw [List.filter_cons]
      simp [hf]

/-- `categorized_blocks[c]` holds exactly the input blocks of category `c`,
in input order. -/
theorem getD_lookup_categorize (blocks : List Block) (c : String) :
    ((categorizeBlocks blocks).lookup c).getD [] =
      blocks.filter (fun b => b.category == c) := by
  have h := getD_lookup_foldl blocks [] c
  rw [categorizeBlocks, h]
  rfl

/-- Every block stored under a key of the grouping has that category. -/
def PureGroups (groups : List (String × List Block)) : Prop :=
  ∀ p ∈ groups, ∀ b ∈ p.2, b.category = p.1

/-- The keys of the grouping are pairwise distinct. -/
def KeysNodup (groups : List (String × List Block)) : Prop :=
  (groups.map Prod.fst).Nodup

/-- One grouping step preserves category purity. -/
theorem pureGroups_addToCategory {acc : List (String × List Block)}
    (h : PureGroups acc) (b : Block) : PureGroups (addToCategory acc b) := by
  by_cases hs : (acc.lookup b.category).isSome
  · rw [addToCategory, if_pos hs]
    intro p hp b' hb'
    obtain ⟨q, hq, hpq⟩ := List.mem_map.mp hp
    by_cases hk : q.1 == b.category
    · rw [if_pos hk] at hpq
      subst hpq
      simp only at hb' ⊢
      rcases List.mem_append.mp hb' with hb' | hb'
      · exact h q hq b' hb'
      · simp only [List.mem_singleton] at hb'
        subst hb'
        exact (beq_iff_eq.mp hk).symm
    · rw [if_neg hk] at hpq
      subst hpq
      exact h q hq b' hb'
  · rw [addToCategory, if_neg hs]
    intro p hp b' hb'
    rcases List.mem_append.mp hp with hp | hp
    · exact h p hp b' hb'
    · simp only [List.mem_singleton] at hp
      subst hp
      simp only [List.mem_singleton] at hb'
      subst hb'
      rfl

/-- One grouping step preserves key distinctness. -/
theorem keysNodup_addToCategory {acc : List (String × List Block)}
    (h : KeysNodup acc) (b : Block) : KeysNodup (addToCategory acc b) := by
  by_cases hs : (acc.lookup b.category).isSome
  · rw [KeysNodup, addToCategory, if_pos hs]
    have : (acc.map (fun p => if p.1 == b.category then (p.1, p.2 ++ [b]) else p)).map
        Prod.fst = acc.map Prod.fst := by
      rw [List.map_map]
      apply List.map_congr_left
      intro p _
      show (if p.1 == b.category then (p.1, p.2 ++ [b]) else p).1 = p.1
      split
      · rfl
      · rfl
    rw [this]
    exact h
  · rw [KeysNodup, addToCategory, if_neg hs]
    have hnm : b.category ∉ acc.map Prod.fst := by
      intro hmem
      exact hs (lookup_isSome_of_mem_keys acc b.category hmem)
    rw [List.map_append]
    simp only [List.map_cons, List.map_nil]
    rw [List.nodup_append]
    refine ⟨h, List.nodup_singleton _, ?_⟩
    intro a ha hb'
    simp only [List.mem_singleton] at hb'
    subst hb'
    exact hnm ha

/-- The grouping loop yields category-pure groups. -/
theorem pureGroups_categorize (blocks : List Block) :
    PureGroups (categorizeBlocks blocks) := by
  rw [categorizeBlocks]
  have : ∀ (bs : List Block) (acc : List (String × List Block)), PureGroups acc →
      PureGroups (bs.foldl addToCategory acc) := by
    intro bs
    induction bs with
    | nil => intro acc h; exact h
    | cons b bs ih =>
      intro acc h
      exact ih _ (pureGroups_addToCategory h b)
  exact this blocks [] (by intro p hp; simp at hp)

/-- The grouping loop yields distinct keys. -/
theorem keysNodup_categorize (blocks : List Block) :
    KeysNodup (categorizeBlocks blocks) := by
  rw [categorizeBlocks]
  have : ∀ (bs : List Block) (acc : List (String × List Block)), KeysNodup acc →
      KeysNodup (bs.foldl addToCategory acc) := by
    intro bs
    induction bs with
    | nil => intro acc h; exact h
    | cons b bs ih =>
      intro acc h
      exact ih _ (keysNodup_addToCategory h b)
  exact this blocks [] (by rw [KeysNodup]; simp)

/-- The placement loop can only shed blocks from the front of its list: every
survivor was in the input. -/
theorem placeLoop_fst_subset :
    ∀ (coords : List (Nat × Nat)) (blocks : List Block) (grid : Grid) (b : Block),
      b ∈ (placeLoop coords blocks grid).1 → b ∈ blocks := by
  intro coords
  induction coords with
  | nil => intro blocks grid b hb; exact hb
  | cons xy rest ih =>
    intro blocks grid b hb
    obtain ⟨x, y⟩ := xy
    cases blocks with
    | nil =>
      simp only [placeLoop] at hb
      split at hb
      · exact ih _ _ _ hb
      · split at hb
        · exact ih _ _ _ hb
        · simp at hb
    | cons hd bs =>
      simp only [placeLoop] at hb
      split at hb
      · exact ih _ _ _ hb
      · split at hb
        · exact ih _ _ _ hb
        · exact List.mem_cons_of_mem _ (ih _ _ _ hb)

/-- When the zone name mapped for `cat` is absent from `zones`, the flattened
placement output restricted to category `cat` is exactly the group stored for
`cat`, untouched by placement. -/
theorem placeCats_filter_absent (cat : String) (zones : List (String × Zone))
    (habsent : zones.lookup ((category_to_zone.lookup cat).getD "archive") = none) :
    ∀ (groups : List (String × List Block)) (grid : Grid),
      PureGroups groups → KeysNodup groups →
      (((placeCategories groups zones grid).1.map Prod.snd).flatten).filter
          (fun b => b.category == cat)
        = ((groups.lookup cat).getD []) := by
  intro groups
  induction groups with
  | nil =>
    intro grid _ _
    simp [placeCategories]
  | cons p rest ih =>
    intro grid hpure hkeys
    obtain ⟨c, l⟩ := p
    have hpure_rest : PureGroups rest :=
      fun q hq => hpure q (List.mem_cons_of_mem _ hq)
    have hkeys_rest : KeysNodup rest := by
      rw [KeysNodup] at hkeys ⊢
      rw [List.map_cons] at hkeys
      exact (List.nodup_cons.mp hkeys).2
    have hpure_head : ∀ b ∈ l, b.category = c :=
      fun b hb => hpure (c, l) (List.mem_cons_self _ _) b hb
    by_cases hc : c = cat
    · subst hc
      have hnotin : c ∉ rest.map Prod.fst := by
        rw [KeysNodup, List.map_cons] at hkeys
        exact (List.nodup_cons.mp hkeys).1
      have hrestnone : rest.lookup c = none := lookup_none_of_not_mem rest c hnotin
      simp only [placeCategories, habsent]
      rw [List.map_cons, List.flatten_cons, List.filter_append]
      rw [List.filter_eq_self.mpr (fun b hb => by simp [hpure_head b hb])]
      rw [ih grid hpure_rest hkeys_rest, hrestnone]
      rw [lookup_cons_if, if_pos rfl]
      simp
    · rw [lookup_cons_if, if_neg (fun h => hc h.symm)]
      cases hz : zones.lookup ((category_to_zone.lookup c).getD "archive") with
      | none =>
        simp only [placeCategories, hz]
        rw [List.map_cons, List.flatten_cons, List.filter_append]
        rw [List.filter_eq_nil_iff.mpr (fun b hb => by
          simp only [beq_iff_eq]
          rw [hpure_head b hb]
          exact hc)]
        rw [List.nil_append]
        exact ih grid hpure_rest hkeys_rest
      | some zone =>
        simp only [placeCategories, hz]
        rw [List.map_cons, List.flatten_cons, List.filter_append]
        rw [List.filter_eq_nil_iff.mpr (fun b hb => by
          simp only [beq_iff_eq]
          have hbl : b ∈ l := placeLoop_fst_subset _ _ _ _ hb
          rw [hpure_head b hbl]
          exact hc)]
        rw [List.nil_append]
        exact ih _ hpure_rest hkeys_rest

/-- Claim C10: when a block's category maps through `category_to_zone` (with
default `archive`) to a zone name missing from the layout's zones mapping,
reorganization skips placement for that whole group and every one of its
blocks reappears in the resulting blocks list reset: `placed = false` and no
`position` key. -/
theorem c10_missing_zone_group_unplaced (blocks : List Block)
    (zones : List (String × Zone)) (gs : GridSize) (cat : String)
    (habsent : zones.lookup ((category_to_zone.lookup cat).getD "archive") = none) :
    (_reorganize_blocks blocks zones gs).filter (fun b => b.category == cat)
        = (blocks.filter (fun b => b.category == cat)).map resetBlock
    ∧ ∀ b ∈ _reorganize_blocks blocks zones gs, b.category = cat →
        b.placed = false ∧ b.position = none := by
  have hfil : (_reorganize_blocks blocks zones gs).filter (fun b => b.category == cat)
      = (blocks.filter (fun b => b.category == cat)).map resetBlock := by
    have hgroups : PureGroups ((categorizeBlocks blocks).map
        (fun p => (p.1, p.2.map resetBlock))) := by
      intro p hp b hb
      obtain ⟨q, hq, rfl⟩ := List.mem_map.mp hp
      simp only at hb
      obtain ⟨a, ha, rfl⟩ := List.mem_map.mp hb
      show (resetBlock a).category = q.1
      show a.category = q.1
      exact pureGroups_categorize blocks q hq a ha
    have hkeys : KeysNodup ((categorizeBlocks blocks).map
        (fun p => (p.1, p.2.map resetBlock))) := by
      rw [KeysNodup, List.map_map]
      have : (Prod.fst ∘ fun p : String × List Block => (p.1, p.2.map resetBlock))
          = Prod.fst := by
        funext p
        rfl
      rw [this]
      exact keysNodup_categorize blocks
    simp only [_reorganize_blocks]
    rw [placeCats_filter_absent cat zones habsent _ (mkGrid gs) hgroups hkeys]
    rw [lookup_map_snd]
    rw [← getD_lookup_categorize blocks cat]
    cases List.lookup cat (categorizeBlocks blocks) with
    | none => rfl
    | some L => rfl
  refine ⟨hfil, ?_⟩
  intro b hb hcat
  have hmem : b ∈ (_reorganize_blocks blocks zones gs).filter
      (fun b => b.category == cat) :=
    List.mem_filter.mpr ⟨hb, by simp [hcat]⟩
  rw [hfil] at hmem
  obtain ⟨a, _, rfl⟩ := List.mem_map.mp hmem
  exact ⟨rfl, rfl⟩

/-- A block of a category unknown to the zone table, previously placed. -/
def c10_block : Block :=
  { path := "w.bin", name := "w.bin", type := "unknown", category := "mystery",
    size := 3, modified := "m", placed := true, position := some ⟨1, 1⟩ }

/-- Witness for C10: with a zones mapping lacking `archive`, the
`mystery`-category block survives reorganization unplaced and reset. -/
theorem c10_witness :
    (_reorganize_blocks [c10_block] c2_zones ⟨12, 8⟩).filter
        (fun b => b.category == "mystery") = [resetBlock c10_block] := by
  have h := (c10_missing_zone_group_unplaced [c10_block] c2_zones ⟨12, 8⟩ "mystery"
      (by rfl)).1
  rw [h]
  rfl

end GridWrinkl
